import Mathlib

/-!
Shallow embedding of the caching core of the trivia/stock web application:
the trivia question cache (`TriviaAPIService` in `server/trivia-api.ts`) and
the stock quote cache and portfolio ledger (`StockService`).

JavaScript numbers are modelled as `ℚ` (times as `ℤ` milliseconds), JS `Map`s
as association lists with JS `Map` semantics (replace-in-place on `set`,
delete by key), and the nondeterministic environment (upstream HTTP responses,
`Math.random()` draws, `randomUUID()` results, `decodeURIComponent`) as
explicit parameters.  Fallible code returns `Except`.
-/

namespace Trivia

/-- `Question` record from `shared/schema.ts` (table `questions`). -/
structure Question where
  id : String
  categoryId : String
  question : String
  options : List String
  correctAnswer : Int
  difficulty : Int
deriving DecidableEq, Repr

/-- `InsertQuestion` (the insert schema omits `id`; `difficulty` has a default,
so it is optional). -/
structure InsertQuestion where
  categoryId : String
  question : String
  options : List String
  correctAnswer : Int
  difficulty : Option Int
deriving DecidableEq, Repr

/-- A default `Question`, used only as the (never reached) default of
in-range list indexing. -/
def defaultQuestion : Question :=
  { id := "", categoryId := "", question := "", options := [], correctAnswer := 0, difficulty := 0 }

/-- `QuestionCacheEntry` from `trivia-api.ts`: `{ questions, timestamp, expiry }`. -/
structure QuestionCacheEntry where
  questions : List Question
  timestamp : Int
  expiry : Int
deriving DecidableEq, Repr

/-- JS `Map` lookup on an association list (first entry with the key wins,
as in a JS `Map`, where keys are unique). -/
def mapLookup {β : Type} : List (String × β) → String → Option β
  | [], _ => none
  | (k', v') :: rest, k => if k' = k then some v' else mapLookup rest k

/-- JS `Map.set`: replace the entry in place if the key is present, else append. -/
def mapSet {β : Type} : List (String × β) → String → β → List (String × β)
  | [], k, v => [(k, v)]
  | (k', v') :: rest, k, v =>
    if k' = k then (k, v) :: rest else (k', v') :: mapSet rest k v

/-- JS `Map.delete`: remove the entry with the given key. -/
def mapDelete {β : Type} : List (String × β) → String → List (String × β)
  | [], _ => []
  | (k', v') :: rest, k =>
    if k' = k then mapDelete rest k else (k', v') :: mapDelete rest k

/-- The question cache (`private cache = new Map<string, QuestionCacheEntry>()`). -/
abbrev Cache := List (String × QuestionCacheEntry)

/-- `CACHE_DURATION = 10 * 60 * 1000` (10 minutes in milliseconds). -/
def CACHE_DURATION : Int := 10 * 60 * 1000

/-- `CATEGORY_MAPPING`: internal category ids to Open Trivia Database ids. -/
def CATEGORY_MAPPING : String → Option Nat
  | "general" => some 9
  | "science" => some 17
  | "history" => some 23
  | "sports" => some 21
  | "entertainment" => some 11
  | "music" => some 12
  | _ => none

/-- `OpenTriviaQuestion`: one item of the upstream provider's `results` array.
The source field `type` is renamed `qtype` (`type` is a Lean keyword). -/
structure OpenTriviaQuestion where
  category : String
  qtype : String
  difficulty : String
  question : String
  correct_answer : String
  incorrect_answers : List String
deriving DecidableEq, Repr

/-- The possible upstream fetch outcomes seen by `fetchQuestionsFromAPI`:
a transport failure, a non-ok HTTP response, or a decoded JSON body
`{ response_code, results }`. -/
inductive UpstreamResponse where
  | transportError : UpstreamResponse
  | httpError (status : Nat) : UpstreamResponse
  | apiResponse (response_code : Nat) (results : List OpenTriviaQuestion) : UpstreamResponse
deriving DecidableEq, Repr

/-- `Math.floor(r * n)` for a `Math.random()` draw `r ∈ [0,1)`, as a `Nat` index. -/
def jsFloorIdx (r : ℚ) (n : Nat) : Nat := (⌊r * (n : ℚ)⌋).toNat

/-- JS `Array.prototype.indexOf`: first index of the element, `-1` if absent. -/
def jsIndexOf (l : List String) (a : String) : Int :=
  if a ∈ l then (l.indexOf a : Int) else -1

/-- One swap step `[array[i], array[j]] = [array[j], array[i]]` of the
Fisher-Yates loop (a no-op when an index is out of range, which the
loop never produces for in-range draws). -/
def listSwap {α : Type} (l : List α) (i j : Nat) : List α :=
  match l[i]?, l[j]? with
  | some x, some y => (l.set i y).set j x
  | _, _ => l

/-- The Fisher-Yates loop of `shuffleArray`, counting `i` down to `1`;
`c i` is the `Math.random()` draw of the iteration with counter `i`. -/
def shuffleLoop {α : Type} (c : Nat → ℚ) : Nat → List α → List α
  | 0, l => l
  | i + 1, l => shuffleLoop c i (listSwap l (i + 1) (jsFloorIdx (c (i + 1)) (i + 2)))

/-- `shuffleArray`: Fisher-Yates shuffle, with draws supplied by `c`. -/
def shuffleArray {α : Type} (c : Nat → ℚ) (l : List α) : List α :=
  shuffleLoop c (l.length - 1) l

/-- Difficulty mapping `difficultyMap[apiQuestion.difficulty] || 2`. -/
def difficultyOf : String → Int
  | "easy" => 1
  | "medium" => 2
  | "hard" => 3
  | _ => 2

/-- `transformAPIQuestion`: decode the strings (decoder `dec`), build
`[correct, ...incorrect]`, shuffle a copy, and record the post-shuffle
index of the correct answer.  `qid` is the `randomUUID()` result and `c`
the stream of `Math.random()` draws of the shuffle. -/
def transformAPIQuestion (dec : String → String) (apiQuestion : OpenTriviaQuestion)
    (categoryId : String) (qid : String) (c : Nat → ℚ) : Question :=
  let question := dec apiQuestion.question
  let correctAnswer := dec apiQuestion.correct_answer
  let incorrectAnswers := apiQuestion.incorrect_answers.map dec
  let allOptions := correctAnswer :: incorrectAnswers
  let shuffledOptions := shuffleArray c allOptions
  let correctAnswerIndex := jsIndexOf shuffledOptions correctAnswer
  { id := qid
    categoryId := categoryId
    question := question
    options := shuffledOptions
    correctAnswer := correctAnswerIndex
    difficulty := difficultyOf apiQuestion.difficulty }

/-- JS `Array.prototype.map` where each element also consumes its own slice of
the global random streams, indexed by position. -/
def mapIdxGo {α β : Type} (f : Nat → α → β) : Nat → List α → List β
  | _, [] => []
  | i, a :: as => f i a :: mapIdxGo f (i + 1) as

/-- `getAPIErrorMessage` for Open Trivia DB response codes. -/
def getAPIErrorMessage (code : Nat) : String :=
  match code with
  | 1 => "No Results - Could not return results. The API doesn't have enough questions for your query."
  | 2 => "Invalid Parameter - Contains an invalid parameter."
  | 3 => "Token Not Found - Session Token does not exist."
  | 4 => "Token Empty - Session Token has returned all possible questions for the specified query."
  | 5 => "Rate Limit - Too many requests have been sent."
  | _ => "Unknown error code"

/-- `fetchQuestionsFromAPI`: map the category, perform the request (outcome
`upstream`), check HTTP status, response code and non-emptiness, and transform
each result.  `ids i` / `draws i` are the `randomUUID()` and `Math.random()`
streams consumed by the `i`-th transformed question. -/
def fetchQuestionsFromAPI (categoryId : String) (amount : Nat)
    (upstream : UpstreamResponse) (dec : String → String)
    (ids : Nat → String) (draws : Nat → Nat → ℚ) : Except String (List Question) :=
  match CATEGORY_MAPPING categoryId with
  | none => .error ("Unknown category: " ++ categoryId)
  | some _ =>
    match upstream with
    | .transportError => .error "fetch failed"
    | .httpError status => .error ("HTTP error! status: " ++ toString status)
    | .apiResponse code results =>
      if code ≠ 0 then
        .error ("Open Trivia DB API error: " ++ getAPIErrorMessage code)
      else if results.isEmpty then
        .error "No questions returned from API"
      else
        .ok (mapIdxGo (fun i r => transformAPIQuestion dec r categoryId (ids i) (draws i)) 0 results)

/-- `getCachedQuestions`: return the entry's questions if present and not
expired (`now > expiry` means expired; expired entries are kept). -/
def getCachedQuestions (cache : Cache) (cacheKey : String) (now : Int) :
    Option (List Question) :=
  match mapLookup cache cacheKey with
  | none => none
  | some cached => if now > cached.expiry then none else some cached.questions

/-- `cleanupExpiredCache`: collect the keys of entries with
`now > entry.expiry + CACHE_DURATION` and delete them. -/
def cleanupExpiredCache (cache : Cache) (now : Int) : Cache :=
  let expiredKeys :=
    (cache.filter (fun p => decide (now > p.2.expiry + CACHE_DURATION))).map Prod.fst
  expiredKeys.foldl (fun acc key => mapDelete acc key) cache

/-- `cacheQuestions`: store the batch with `expiry = now + CACHE_DURATION`,
then run the cleanup sweep. -/
def cacheQuestions (cache : Cache) (cacheKey : String) (questions : List Question)
    (now : Int) : Cache :=
  cleanupExpiredCache
    (mapSet cache cacheKey { questions := questions, timestamp := now, expiry := now + CACHE_DURATION })
    now

/-- Result record of `getCacheStats`. -/
structure CacheStats where
  totalEntries : Nat
  validEntries : Nat
  expiredEntries : Nat
deriving DecidableEq, Repr

/-- `getCacheStats`: count all entries, the not-yet-expired ones
(`now ≤ expiry`) and the expired ones. -/
def getCacheStats (cache : Cache) (now : Int) : CacheStats :=
  { totalEntries := cache.length
    validEntries := (cache.filter (fun p => decide (now ≤ p.2.expiry))).length
    expiredEntries := (cache.filter (fun p => decide (now > p.2.expiry))).length }

/-- The hardcoded fallback table of `getFallbackQuestions`, keyed by category. -/
def fallbackQuestionsTable : String → Option (List InsertQuestion)
  | "science" => some
      [ { categoryId := "science"
          question := "What is the largest planet in our solar system?"
          options := ["Earth", "Jupiter", "Saturn", "Neptune"]
          correctAnswer := 1, difficulty := some 1 }
      , { categoryId := "science"
          question := "What is the chemical symbol for gold?"
          options := ["Go", "Gd", "Au", "Ag"]
          correctAnswer := 2, difficulty := some 2 } ]
  | "history" => some
      [ { categoryId := "history"
          question := "In which year did World War II end?"
          options := ["1944", "1945", "1946", "1947"]
          correctAnswer := 1, difficulty := some 1 }
      , { categoryId := "history"
          question := "Who was the first person to walk on the moon?"
          options := ["Buzz Aldrin", "Neil Armstrong", "John Glenn", "Alan Shepard"]
          correctAnswer := 1, difficulty := some 1 } ]
  | "general" => some
      [ { categoryId := "general"
          question := "What is the capital of Australia?"
          options := ["Sydney", "Melbourne", "Canberra", "Brisbane"]
          correctAnswer := 2, difficulty := some 2 }
      , { categoryId := "general"
          question := "Which planet is known as the Red Planet?"
          options := ["Venus", "Mars", "Jupiter", "Saturn"]
          correctAnswer := 1, difficulty := some 1 } ]
  | "sports" => some
      [ { categoryId := "sports"
          question := "How many players are on a basketball team on the court at one time?"
          options := ["4", "5", "6", "7"]
          correctAnswer := 1, difficulty := some 1 } ]
  | "entertainment" => some
      [ { categoryId := "entertainment"
          question := "Which movie features the quote 'May the Force be with you'?"
          options := ["Star Trek", "Star Wars", "Blade Runner", "The Matrix"]
          correctAnswer := 1, difficulty := some 1 } ]
  | "music" => some
      [ { categoryId := "music"
          question := "Which instrument has 88 keys?"
          options := ["Organ", "Piano", "Harpsichord", "Accordion"]
          correctAnswer := 1, difficulty := some 1 } ]
  | _ => none

/-- The `"general"` fallback list (`fallbackQuestions.general`). -/
def generalFallback : List InsertQuestion :=
  (fallbackQuestionsTable "general").getD []

/-- Category fallback selection `fallbackQuestions[categoryId] || fallbackQuestions.general`. -/
def fallbackFor (categoryId : String) : List InsertQuestion :=
  (fallbackQuestionsTable categoryId).getD generalFallback

/-- `getFallbackQuestions`: truncate the category's fallback list to `limit`
and attach fresh ids (`ids i` is the `randomUUID()` of the `i`-th item);
`difficulty` defaults to 1 when absent. -/
def getFallbackQuestions (categoryId : String) (limit : Nat) (ids : Nat → String) :
    List Question :=
  let categoryQuestions := fallbackFor categoryId
  mapIdxGo
    (fun i q =>
      { id := ids i
        categoryId := q.categoryId
        question := q.question
        options := q.options
        correctAnswer := q.correctAnswer
        difficulty := q.difficulty.getD 1 })
    0 (categoryQuestions.take limit)

/-- The `try { fetch… } catch { … }` block of `getQuestionsByCategory`,
reached when the fresh-cache check did not serve the request: fetch a batch
of `cacheSize = if limit = 1 then 50 else max limit 20` questions, cache it
and serve on success; on any fetch error serve from the (possibly expired)
raw cache entry when present and non-empty, else from the hardcoded
fallback. -/
def getQuestionsFetchPath (cache : Cache) (categoryId : String) (limit : Nat)
    (now : Int) (upstream : UpstreamResponse) (dec : String → String)
    (ids : Nat → String) (draws : Nat → Nat → ℚ) (r : ℚ) :
    List Question × Cache :=
  match fetchQuestionsFromAPI categoryId (if limit = 1 then 50 else max limit 20)
      upstream dec ids draws with
  | .ok questions =>
    let cache' := cacheQuestions cache (categoryId ++ "_batch") questions now
    if limit = 1 ∧ 0 < questions.length then
      ([questions.getD (jsFloorIdx r questions.length) defaultQuestion], cache')
    else
      (questions.take limit, cache')
  | .error _ =>
    match mapLookup cache (categoryId ++ "_batch") with
    | some fallbackCache =>
      if 0 < fallbackCache.questions.length then
        if limit = 1 then
          ([fallbackCache.questions.getD
              (jsFloorIdx r (min fallbackCache.questions.length 20)) defaultQuestion],
           cache)
        else
          (fallbackCache.questions.take limit, cache)
      else
        (getFallbackQuestions categoryId limit ids, cache)
    | none => (getFallbackQuestions categoryId limit ids, cache)

/-- `getQuestionsByCategory categoryId limit`: serve from the fresh cache when
it has at least `limit` questions, otherwise run the fetch path.  Returns the
served questions and the cache state after the call.  `r` is the
`Math.random()` draw of the single-question pick. -/
def getQuestionsByCategory (cache : Cache) (categoryId : String) (limit : Nat)
    (now : Int) (upstream : UpstreamResponse) (dec : String → String)
    (ids : Nat → String) (draws : Nat → Nat → ℚ) (r : ℚ) :
    List Question × Cache :=
  match getCachedQuestions cache (categoryId ++ "_batch") now with
  | some cached =>
    if cached.length ≥ limit then
      if limit = 1 then
        ([cached.getD (jsFloorIdx r (min cached.length 20)) defaultQuestion], cache)
      else
        (cached.take limit, cache)
    else
      getQuestionsFetchPath cache categoryId limit now upstream dec ids draws r
  | none => getQuestionsFetchPath cache categoryId limit now upstream dec ids draws r

/-- Upstream fetch outcomes the code treats uniformly as fetch failure:
transport errors, non-ok HTTP responses, non-zero response codes and empty
result lists. -/
def upstreamFails : UpstreamResponse → Prop
  | .transportError => True
  | .httpError _ => True
  | .apiResponse code results => code ≠ 0 ∨ results = []

/-- Upstream results of a concrete 21-question scenario: 21 distinct
one-option questions (question text of the `i`-th is `i` repetitions of `x`). -/
def c5results : List OpenTriviaQuestion :=
  (List.range 21).map (fun i =>
    { category := "", qtype := "multiple", difficulty := "easy",
      question := String.mk (List.replicate i 'x'), correct_answer := "A",
      incorrect_answers := [] })

/-- The transformed batch the 21-question scenario stores. -/
def c5batch : List Question :=
  (List.range 21).map (fun i =>
    { id := "", categoryId := "general", question := String.mk (List.replicate i 'x'),
      options := ["A"], correctAnswer := 0, difficulty := 1 })

/-- The 21-question scenario call: empty cache, `limit = 1`, fetch succeeds
with 21 results, `Math.random()` draw `20/21`. -/
def c5call : List Question × Cache :=
  getQuestionsByCategory [] "general" 1 0 (.apiResponse 0 c5results) (fun s => s)
    (fun _ => "") (fun _ _ => 0) (20 / 21)

end Trivia

namespace Stock

/-- JS `String.prototype.toUpperCase` (ASCII suffices for ticker symbols). -/
def jsToUpper (s : String) : String := String.mk (s.data.map Char.toUpper)

/-- A stock quote `{ symbol, price, change }`. -/
structure Quote where
  symbol : String
  price : ℚ
  change : ℚ
deriving DecidableEq, Repr

/-- A quote-cache entry `{ timestamp, data }`. -/
structure QuoteEntry where
  timestamp : Int
  data : Quote
deriving DecidableEq, Repr

/-- A portfolio position `{ shares, avgPrice }`. -/
structure Position where
  shares : ℚ
  avgPrice : ℚ
deriving DecidableEq, Repr

/-- The outcome of the quote provider request seen by `getQuote`: transport /
non-ok HTTP failure, or a response whose `quoteResponse.result[0]` is either
absent (`none`) or a usable quote record. -/
inductive QuoteUpstream where
  | fetchFail : QuoteUpstream
  | response (firstResult : Option Quote) : QuoteUpstream
deriving DecidableEq, Repr

/-- The mutable state of `StockService`: balance, portfolio, quote cache and
the construction-time cache TTL. -/
structure StockState where
  balance : ℚ
  portfolio : List (String × Position)
  quoteCache : List (String × QuoteEntry)
  cacheTtl : Int
deriving DecidableEq, Repr

/-- Fresh `StockService(initialBalance, cacheTtlMs)` (defaults 10000 / 60000). -/
def initStockState (initialBalance : ℚ) (cacheTtlMs : Int) : StockState :=
  { balance := initialBalance, portfolio := [], quoteCache := [], cacheTtl := cacheTtlMs }

/-- The fetch-and-store tail of `getQuote`, reached when there is no fresh
cache entry for `key`.  The `Bool` records that the upstream provider was
invoked. -/
def getQuoteFetch (s : StockState) (key : String) (now : Int)
    (upstream : QuoteUpstream) : Except String Quote × StockState × Bool :=
  match upstream with
  | .fetchFail => (.error "Failed to fetch stock data", s, true)
  | .response none => (.error "Invalid quote response", s, true)
  | .response (some q) =>
    (.ok { symbol := q.symbol, price := q.price, change := q.change },
     { s with quoteCache :=
        Trivia.mapSet s.quoteCache key ⟨now, ⟨q.symbol, q.price, q.change⟩⟩ },
     true)

/-- `getQuote`: serve the cached quote when `now - timestamp < cacheTtl`,
otherwise fetch and store.  The `Bool` of the result is `true` exactly when
the upstream provider was invoked. -/
def getQuote (s : StockState) (symbol : String) (now : Int)
    (upstream : QuoteUpstream) : Except String Quote × StockState × Bool :=
  match Trivia.mapLookup s.quoteCache (jsToUpper symbol) with
  | some cached =>
    if now - cached.timestamp < s.cacheTtl then (.ok cached.data, s, false)
    else getQuoteFetch s (jsToUpper symbol) now upstream
  | none => getQuoteFetch s (jsToUpper symbol) now upstream

/-- `getPortfolio()` snapshot: in this pure embedding the copy is the value
itself. -/
def getPortfolio (s : StockState) : List (String × Position) := s.portfolio

/-- `buy(symbol, shares, price)`: fail when `shares * price > balance`,
otherwise decrement the balance, update the weighted average cost with the
pre-increment share count, and increment the position's shares. -/
def buy (s : StockState) (symbol : String) (shares price : ℚ) :
    Except String (ℚ × List (String × Position)) × StockState :=
  let key := jsToUpper symbol
  let cost := shares * price
  if cost > s.balance then
    (.error "Not enough funds", s)
  else
    let balance' := s.balance - cost
    let holding := (Trivia.mapLookup s.portfolio key).getD { shares := 0, avgPrice := 0 }
    let holding' : Position :=
      { shares := holding.shares + shares
        avgPrice := (holding.avgPrice * holding.shares + cost) / (holding.shares + shares) }
    let s' : StockState :=
      { s with balance := balance', portfolio := Trivia.mapSet s.portfolio key holding' }
    (.ok (balance', getPortfolio s'), s')

/-- `sell(symbol, shares, price)`: fail when there is no position or it holds
fewer than `shares`; otherwise increment the balance, decrement the position,
and delete the position when its share count reaches zero. -/
def sell (s : StockState) (symbol : String) (shares price : ℚ) :
    Except String (ℚ × List (String × Position)) × StockState :=
  let key := jsToUpper symbol
  match Trivia.mapLookup s.portfolio key with
  | none => (.error "Not enough shares", s)
  | some position =>
    if position.shares < shares then
      (.error "Not enough shares", s)
    else
      let revenue := shares * price
      let balance' := s.balance + revenue
      let newShares := position.shares - shares
      let portfolio' :=
        if newShares = 0 then Trivia.mapDelete s.portfolio key
        else Trivia.mapSet s.portfolio key { shares := newShares, avgPrice := position.avgPrice }
      let s' : StockState := { s with balance := balance', portfolio := portfolio' }
      (.ok (balance', getPortfolio s'), s')

end Stock

namespace Trivia

theorem mapLookup_mapSet_self {β : Type} (m : List (String × β)) (k : String) (v : β) :
    mapLookup (mapSet m k v) k = some v := by
  induction m with
  | nil => simp [mapSet, mapLookup]
  | cons p rest ih =>
    obtain ⟨k', v'⟩ := p
    by_cases h : k' = k
    · simp [mapSet, mapLookup, h]
    · simp [mapSet, mapLookup, h, ih]

theorem mapLookup_mapSet_ne {β : Type} (m : List (String × β)) (k k' : String) (v : β)
    (h : k' ≠ k) : mapLookup (mapSet m k v) k' = mapLookup m k' := by
  have hne : ¬ (k = k') := fun hc => h hc.symm
  induction m with
  | nil => simp [mapSet, mapLookup, hne]
  | cons p rest ih =>
    obtain ⟨k₀, v₀⟩ := p
    by_cases h₀ : k₀ = k
    · subst h₀
      simp [mapSet, mapLookup, hne]
    · simp [mapSet, mapLookup, h₀, ih]

theorem mapLookup_mapDelete_self {β : Type} (m : List (String × β)) (k : String) :
    mapLookup (mapDelete m k) k = none := by
  induction m with
  | nil => simp [mapDelete, mapLookup]
  | cons p rest ih =>
    obtain ⟨k₀, v₀⟩ := p
    by_cases h : k₀ = k
    · simp [mapDelete, h, ih]
    · simp [mapDelete, mapLookup, h, ih]

theorem mapDelete_eq_filter {β : Type} (m : List (String × β)) (k : String) :
    mapDelete m k = m.filter (fun p => decide (p.1 ≠ k)) := by
  induction m with
  | nil => simp [mapDelete]
  | cons p rest ih =>
    obtain ⟨k₀, v₀⟩ := p
    by_cases h : k₀ = k
    · simp [mapDelete, List.filter, h, ih]
    · simp [mapDelete, List.filter, h, ih]

theorem mapLookup_eq_none_iff {β : Type} (m : List (String × β)) (k : String) :
    mapLookup m k = none ↔ ∀ v, (k, v) ∉ m := by
  induction m with
  | nil => simp [mapLookup]
  | cons p rest ih =>
    obtain ⟨k₀, v₀⟩ := p
    simp only [mapLookup]
    by_cases h : k₀ = k
    · subst h
      rw [if_pos rfl]
      constructor
      · intro hc
        cases hc
      · intro hall
        exact absurd (List.mem_cons_self _ _) (hall v₀)
    · rw [if_neg h, ih]
      constructor
      · intro hall v hv
        rcases List.mem_cons.mp hv with hv | hv
        · exact absurd (congrArg Prod.fst hv).symm h
        · exact hall v hv
      · intro hall v hv
        exact hall v (List.mem_cons_of_mem _ hv)

theorem mapLookup_isSome_of_mem {β : Type} {m : List (String × β)} {k : String} {v : β}
    (h : (k, v) ∈ m) : (mapLookup m k).isSome := by
  cases hl : mapLookup m k with
  | none => exact absurd h ((mapLookup_eq_none_iff m k).mp hl v)
  | some _ => rfl

theorem count_set_add {α : Type} [DecidableEq α] {l : List α} {i : Nat} (h : i < l.length)
    (b a : α) :
    (l.set i b).count a + (if l[i] = a then 1 else 0) =
      l.count a + (if b = a then 1 else 0) := by
  have hd : l.take i ++ l[i] :: l.drop (i + 1) = l := by
    rw [List.getElem_cons_drop, List.take_append_drop]
  have hs : l.set i b = l.take i ++ b :: l.drop (i + 1) := by
    rw [List.set_eq_take_append_cons_drop, if_pos h]
  conv_rhs => rw [← hd]
  rw [hs]
  simp only [List.count_append, List.count_cons, beq_iff_eq]
  split_ifs <;> omega

theorem listSwap_perm {α : Type} [DecidableEq α] (l : List α) (i j : Nat) :
    List.Perm (listSwap l i j) l := by
  cases h₁ : l[i]? with
  | none =>
    have he : listSwap l i j = l := by unfold listSwap; rw [h₁]
    rw [he]
  | some x =>
    cases h₂ : l[j]? with
    | none =>
      have he : listSwap l i j = l := by unfold listSwap; rw [h₁, h₂]
      rw [he]
    | some y =>
      have he : listSwap l i j = (l.set i y).set j x := by unfold listSwap; rw [h₁, h₂]
      rw [he]
      obtain ⟨hi, hxi⟩ := List.getElem?_eq_some.mp h₁
      obtain ⟨hj, hyj⟩ := List.getElem?_eq_some.mp h₂
      rw [List.perm_iff_count]
      intro a
      have hj' : j < (l.set i y).length := by
        rw [List.length_set]; exact hj
      have e₁ := count_set_add hj' x a
      have e₂ := count_set_add hi y a
      have e₃ : (l.set i y)[j] = if i = j then y else l[j] := List.getElem_set hj'
      rw [hxi] at e₂
      rw [e₃] at e₁
      by_cases hij : i = j
      · subst hij
        have hxy : x = y := by rw [← hxi, ← hyj]
        subst hxy
        rw [if_pos rfl] at e₁
        omega
      · rw [if_neg hij, hyj] at e₁
        omega

theorem shuffleLoop_perm {α : Type} [DecidableEq α] (c : Nat → ℚ) :
    ∀ (n : Nat) (l : List α), List.Perm (shuffleLoop c n l) l := by
  intro n
  induction n with
  | zero => intro l; exact List.Perm.refl l
  | succ i ih =>
    intro l
    exact (ih _).trans (listSwap_perm l (i + 1) (jsFloorIdx (c (i + 1)) (i + 2)))

theorem shuffleArray_perm {α : Type} [DecidableEq α] (c : Nat → ℚ) (l : List α) :
    List.Perm (shuffleArray c l) l :=
  shuffleLoop_perm c (l.length - 1) l

theorem shuffleArray_length {α : Type} [DecidableEq α] (c : Nat → ℚ) (l : List α) :
    (shuffleArray c l).length = l.length :=
  (shuffleArray_perm c l).length_eq

theorem foldl_mapDelete_eq_filter {β : Type} (ks : List String) (m : List (String × β)) :
    ks.foldl (fun acc k => mapDelete acc k) m = m.filter (fun p => decide (p.1 ∉ ks)) := by
  induction ks generalizing m with
  | nil => simp
  | cons k ks ih =>
    rw [List.foldl_cons, ih, mapDelete_eq_filter, List.filter_filter]
    apply List.filter_congr
    intro a _
    simp only [List.mem_cons, not_or, Bool.decide_and, Bool.and_comm]

theorem nodupKeys_mem_unique {β : Type} {m : List (String × β)}
    (h : (m.map Prod.fst).Nodup) {k : String} {v₁ v₂ : β}
    (h₁ : (k, v₁) ∈ m) (h₂ : (k, v₂) ∈ m) : v₁ = v₂ := by
  induction m with
  | nil => cases h₁
  | cons p rest ih =>
    rw [List.map_cons, List.nodup_cons] at h
    rcases List.mem_cons.mp h₁ with he₁ | he₁ <;> rcases List.mem_cons.mp h₂ with he₂ | he₂
    · rw [← he₂] at he₁
      exact congrArg Prod.snd he₁
    · exfalso
      apply h.1
      rw [← he₁]
      exact List.mem_map.mpr ⟨(k, v₂), he₂, rfl⟩
    · exfalso
      apply h.1
      rw [← he₂]
      exact List.mem_map.mpr ⟨(k, v₁), he₁, rfl⟩
    · exact ih h.2 he₁ he₂

theorem cleanupExpiredCache_eq_filter (cache : Cache) (now : Int)
    (h : (cache.map Prod.fst).Nodup) :
    cleanupExpiredCache cache now =
      cache.filter (fun p => decide (¬ (now > p.2.expiry + CACHE_DURATION))) := by
  unfold cleanupExpiredCache
  rw [foldl_mapDelete_eq_filter]
  apply List.filter_congr
  intro p hp
  rw [decide_eq_decide]
  constructor
  · intro hnot hexp
    apply hnot
    exact List.mem_map.mpr ⟨p, List.mem_filter.mpr ⟨hp, by simpa using hexp⟩, rfl⟩
  · intro hnotexp hmem
    obtain ⟨q, hq, hqk⟩ := List.mem_map.mp hmem
    obtain ⟨hqm, hqexp⟩ := List.mem_filter.mp hq
    have : q.2 = p.2 := by
      have hq' : (p.1, q.2) ∈ cache := by rw [← hqk]; exact hqm
      exact nodupKeys_mem_unique h hq' hp
    apply hnotexp
    rw [← this]
    simpa using hqexp

theorem mapIdxGo_length {α β : Type} (f : Nat → α → β) :
    ∀ (i : Nat) (l : List α), (mapIdxGo f i l).length = l.length := by
  intro i l
  induction l generalizing i with
  | nil => rfl
  | cons a as ih => simp [mapIdxGo, ih]

theorem fetchQuestionsFromAPI_ok_shape {categoryId : String} {amount : Nat}
    {upstream : UpstreamResponse} {dec : String → String} {ids : Nat → String}
    {draws : Nat → Nat → ℚ} {qs : List Question}
    (h : fetchQuestionsFromAPI categoryId amount upstream dec ids draws = .ok qs) :
    ∃ results, upstream = .apiResponse 0 results ∧ results ≠ [] ∧
      qs.length = results.length := by
  unfold fetchQuestionsFromAPI at h
  split at h
  · simp at h
  · split at h
    · simp at h
    · simp at h
    · rename_i code results
      split at h
      · simp at h
      · rename_i hc
        push_neg at hc
        subst hc
        split at h
        · simp at h
        · rename_i he
          refine ⟨results, rfl, fun hnil => he (by simp [hnil]), ?_⟩
          rw [(Except.ok.inj h).symm, mapIdxGo_length]

theorem fetchQuestionsFromAPI_ok_ne_nil {categoryId : String} {amount : Nat}
    {upstream : UpstreamResponse} {dec : String → String} {ids : Nat → String}
    {draws : Nat → Nat → ℚ} {qs : List Question}
    (h : fetchQuestionsFromAPI categoryId amount upstream dec ids draws = .ok qs) :
    qs ≠ [] := by
  obtain ⟨results, _, hne, hlen⟩ := fetchQuestionsFromAPI_ok_shape h
  intro hnil
  rw [hnil] at hlen
  exact hne (List.eq_nil_of_length_eq_zero hlen.symm)

theorem fallbackFor_ne_nil (categoryId : String) : fallbackFor categoryId ≠ [] := by
  unfold fallbackFor fallbackQuestionsTable
  split <;> simp [generalFallback, fallbackQuestionsTable]

theorem getFallbackQuestions_length (categoryId : String) (limit : Nat) (ids : Nat → String) :
    (getFallbackQuestions categoryId limit ids).length =
      min limit (fallbackFor categoryId).length := by
  unfold getFallbackQuestions
  rw [mapIdxGo_length, List.length_take]

theorem getFallbackQuestions_ne_nil (categoryId : String) {limit : Nat} (h : 0 < limit)
    (ids : Nat → String) : getFallbackQuestions categoryId limit ids ≠ [] := by
  intro hnil
  have := getFallbackQuestions_length categoryId limit ids
  rw [hnil] at this
  have hne := fallbackFor_ne_nil categoryId
  have : min limit (fallbackFor categoryId).length = 0 := this.symm
  rcases Nat.min_eq_zero_iff.mp this with h0 | h0
  · omega
  · exact hne (List.eq_nil_of_length_eq_zero h0)

theorem jsFloorIdx_lt {r : ℚ} {n : Nat} (h0 : 0 ≤ r) (h1 : r < 1) (hn : 0 < n) :
    jsFloorIdx r n < n := by
  have h2 : r * (n : ℚ) < (n : ℚ) := by
    calc r * (n : ℚ) < 1 * (n : ℚ) := by
          apply mul_lt_mul_of_pos_right h1
          exact_mod_cast hn
      _ = (n : ℚ) := one_mul _
  have h3 : ⌊r * (n : ℚ)⌋ < (n : ℤ) := Int.floor_lt.mpr (by exact_mod_cast h2)
  unfold jsFloorIdx
  omega

theorem jsFloorIdx_exact {i n : Nat} (h : i < n) :
    jsFloorIdx ((i : ℚ) / (n : ℚ)) n = i := by
  have hn : (n : ℚ) ≠ 0 := by
    have : 0 < n := Nat.lt_of_le_of_lt (Nat.zero_le i) h
    exact_mod_cast Nat.pos_iff_ne_zero.mp this
  unfold jsFloorIdx
  rw [div_mul_cancel₀ _ hn, Int.floor_natCast, Int.toNat_natCast]

/-- C6 (confirmed): for every Question produced by the transform step, the
options list is a permutation of the decoded `[correct_answer,
...incorrect_answers]` list, the recorded correct index is in range, and the
option at that index equals the decoded original correct-answer text — for
every stream `c` of shuffle draws, i.e. for all permutations the shuffle can
produce. -/
theorem transformAPIQuestion_shuffle_property (dec : String → String)
    (apiQuestion : OpenTriviaQuestion) (categoryId qid : String) (c : Nat → ℚ) :
    List.Perm (transformAPIQuestion dec apiQuestion categoryId qid c).options
        (dec apiQuestion.correct_answer :: apiQuestion.incorrect_answers.map dec) ∧
    0 ≤ (transformAPIQuestion dec apiQuestion categoryId qid c).correctAnswer ∧
    (transformAPIQuestion dec apiQuestion categoryId qid c).correctAnswer <
      ((transformAPIQuestion dec apiQuestion categoryId qid c).options.length : Int) ∧
    (transformAPIQuestion dec apiQuestion categoryId qid c).options.getD
        (transformAPIQuestion dec apiQuestion categoryId qid c).correctAnswer.toNat ""
      = dec apiQuestion.correct_answer := by
  unfold transformAPIQuestion
  set ca := dec apiQuestion.correct_answer with hca
  set allOptions := ca :: apiQuestion.incorrect_answers.map dec with hall
  set shuffled := shuffleArray c allOptions with hsh
  have hperm : List.Perm shuffled allOptions := shuffleArray_perm c allOptions
  have hmem : ca ∈ shuffled := hperm.mem_iff.mpr (List.mem_cons_self _ _)
  have hidx : jsIndexOf shuffled ca = (shuffled.indexOf ca : Int) := by
    unfold jsIndexOf
    rw [if_pos hmem]
  have hlt : shuffled.indexOf ca < shuffled.length := List.indexOf_lt_length.mpr hmem
  refine ⟨hperm, ?_, ?_, ?_⟩
  · simp only [hidx]
    exact Int.natCast_nonneg _
  · simp only [hidx]
    exact_mod_cast hlt
  · simp only [hidx, Int.toNat_natCast]
    rw [List.getD_eq_getElem?_getD, List.getElem?_indexOf hmem]
    rfl

/-- C2 (counterexample): an entry stored at `-CACHE_DURATION` (so `expiry = 0`)
is removed by the sweep at `now = CACHE_DURATION + 1`, although `now` is well
below `expiry + 2 × CACHE_DURATION`: the purge threshold of the code is one
`CACHE_DURATION` past expiry, not two. -/
theorem cleanupExpiredCache_purges_before_double_ttl :
    cleanupExpiredCache [("k", ⟨[], -600000, 0⟩)] 600001 = [] ∧
    (600001 : Int) ≤ 0 + 2 * CACHE_DURATION ∧
    (getCacheStats (cleanupExpiredCache [("k", ⟨[], -600000, 0⟩)] 600001) 600001).totalEntries
      = 0 := by
  refine ⟨by decide, by decide, by decide⟩

/-- C2 (amended): the cleanup sweep removes exactly the entries with
`now > expiry + CACHE_DURATION` (one TTL past expiry, i.e. two TTLs past
`storedAt`), keeps every entry with `now ≤ expiry + CACHE_DURATION` even when
it is already expired, and afterwards `getCacheStats` counts exactly the
surviving entries. -/
theorem cleanupExpiredCache_threshold (cache : Cache) (now : Int)
    (h : (cache.map Prod.fst).Nodup) :
    (∀ k e, (k, e) ∈ cleanupExpiredCache cache now ↔
      ((k, e) ∈ cache ∧ now ≤ e.expiry + CACHE_DURATION)) ∧
    (getCacheStats (cleanupExpiredCache cache now) now).totalEntries =
      (cache.filter (fun p => decide (now ≤ p.2.expiry + CACHE_DURATION))).length := by
  have heq := cleanupExpiredCache_eq_filter cache now h
  constructor
  · intro k e
    rw [heq, List.mem_filter]
    simp only [decide_eq_true_eq, gt_iff_lt, Int.not_lt]
  · rw [heq]
    show (cache.filter _).length = _
    congr 1
    apply List.filter_congr
    intro p _
    rw [decide_eq_decide]
    constructor
    · exact fun hc => Int.not_lt.mp hc
    · exact fun hc => Int.not_lt.mpr hc

theorem getCachedQuestions_eq_some {cache : Cache} {k : String} {now : Int}
    {qs : List Question} (h : getCachedQuestions cache k now = some qs) :
    ∃ e, mapLookup cache k = some e ∧ e.questions = qs ∧ ¬ now > e.expiry := by
  unfold getCachedQuestions at h
  split at h
  · simp at h
  · rename_i e hl
    split at h
    · simp at h
    · rename_i hexp
      exact ⟨e, hl, Option.some.inj h, hexp⟩

theorem getQuestionsFetchPath_length_cases (cache : Cache) (categoryId : String)
    (limit : Nat) (now : Int) (upstream : UpstreamResponse) (dec : String → String)
    (ids : Nat → String) (draws : Nat → Nat → ℚ) (r : ℚ)
    (hlim : 1 ≤ limit)
    (hentry : ∀ e, mapLookup cache (categoryId ++ "_batch") = some e →
      limit ≤ e.questions.length)
    (hup : ∀ results, upstream = .apiResponse 0 results → limit ≤ results.length) :
    (getQuestionsFetchPath cache categoryId limit now upstream dec ids draws r).1.length
      = limit ∨
    (mapLookup cache (categoryId ++ "_batch") = none ∧
      (getQuestionsFetchPath cache categoryId limit now upstream dec ids draws r).1 =
        getFallbackQuestions categoryId limit ids ∧
      (getQuestionsFetchPath cache categoryId limit now upstream dec ids draws r).1.length =
        min limit (fallbackFor categoryId).length) := by
  unfold getQuestionsFetchPath
  split
  · rename_i qs hfetch
    obtain ⟨results, hupstream, _, hlen⟩ := fetchQuestionsFromAPI_ok_shape hfetch
    have hql : limit ≤ qs.length := by rw [hlen]; exact hup results hupstream
    split
    · rename_i hcond
      left
      simp [hcond.1]
    · left
      simp only [List.length_take]
      omega
  · rename_i e hfetch
    split
    · rename_i fb hl
      have hfl : limit ≤ fb.questions.length := hentry fb hl
      rw [if_pos (by omega)]
      split
      · rename_i hone
        left
        simp [hone]
      · left
        simp only [List.length_take]
        omega
    · rename_i hl
      right
      exact ⟨hl, rfl, getFallbackQuestions_length categoryId limit ids⟩

/-- C1 (amended): for a mapped category and `limit ∈ [1,50]`,
`getQuestionsByCategory` returns exactly `limit` questions, provided every
existing cache entry for the category holds at least `limit` questions and a
successful upstream response carries at least `limit` results; without a cache
entry and with the upstream failing it returns the category's static fallback
truncated to `limit` (so fewer than `limit` items exactly when that fallback
list is shorter than `limit`). -/
theorem getQuestionsByCategory_limit_length (cache : Cache) (categoryId : String)
    (limit : Nat) (now : Int) (upstream : UpstreamResponse) (dec : String → String)
    (ids : Nat → String) (draws : Nat → Nat → ℚ) (r : ℚ)
    (hmap : (CATEGORY_MAPPING categoryId).isSome)
    (hlim : 1 ≤ limit) (hlim50 : limit ≤ 50)
    (hentry : ∀ e, mapLookup cache (categoryId ++ "_batch") = some e →
      limit ≤ e.questions.length)
    (hup : ∀ results, upstream = .apiResponse 0 results → limit ≤ results.length) :
    (getQuestionsByCategory cache categoryId limit now upstream dec ids draws r).1.length
      = limit ∨
    (mapLookup cache (categoryId ++ "_batch") = none ∧
      (getQuestionsByCategory cache categoryId limit now upstream dec ids draws r).1 =
        getFallbackQuestions categoryId limit ids ∧
      (getQuestionsByCategory cache categoryId limit now upstream dec ids draws r).1.length =
        min limit (fallbackFor categoryId).length) := by
  unfold getQuestionsByCategory
  split
  · rename_i cached hcq
    obtain ⟨e, hl, hqs, _⟩ := getCachedQuestions_eq_some hcq
    have hge : cached.length ≥ limit := by
      rw [← hqs]
      exact hentry e hl
    rw [if_pos hge]
    split
    · rename_i hone
      left
      simp [hone]
    · left
      simp only [List.length_take]
      omega
  · exact getQuestionsFetchPath_length_cases cache categoryId limit now upstream dec ids
      draws r hlim hentry hup

/-- Witness for C1's amended theorem: empty cache, failing upstream,
`limit = 3` on `"general"`: the result is the 2-question general fallback,
matching the right disjunct with `min 3 2 = 2`. -/
theorem getQuestionsByCategory_limit_length_witness :
    (getQuestionsByCategory [] "general" 3 0 .transportError (fun s => s) (fun _ => "")
        (fun _ _ => 0) 0).1.length = 3 ∨
    (mapLookup ([] : Cache) ("general" ++ "_batch") = none ∧
      (getQuestionsByCategory [] "general" 3 0 .transportError (fun s => s) (fun _ => "")
        (fun _ _ => 0) 0).1 = getFallbackQuestions "general" 3 (fun _ => "") ∧
      (getQuestionsByCategory [] "general" 3 0 .transportError (fun s => s) (fun _ => "")
        (fun _ _ => 0) 0).1.length = min 3 (fallbackFor "general").length) :=
  getQuestionsByCategory_limit_length [] "general" 3 0 .transportError (fun s => s)
    (fun _ => "") (fun _ _ => 0) 0 (by decide) (by decide) (by decide)
    (fun e he => by simp [mapLookup] at he)
    (fun results h => by cases h)

/-- C1 (counterexample): `"history"` is a mapped category and `limit = 50` is
in `[1,50]`, the cache holds a (fresh, non-empty) 20-question entry for the
category, yet with the upstream failing the call returns only 20 questions —
served from the cache entry, not from the static fallback — so the claim that
fewer than `limit` items occur only when upstream and cache are both
unavailable fails. -/
theorem getQuestionsByCategory_limit_length_counterexample :
    CATEGORY_MAPPING "history" = some 23 ∧
    (getQuestionsByCategory [("history_batch", ⟨List.replicate 20 defaultQuestion, 0, 600000⟩)]
        "history" 50 0 .transportError (fun s => s) (fun _ => "") (fun _ _ => 0) 0).1.length
      = 20 ∧
    mapLookup ([("history_batch", ⟨List.replicate 20 defaultQuestion, 0, 600000⟩)] : Cache)
        ("history" ++ "_batch")
      = some ⟨List.replicate 20 defaultQuestion, 0, 600000⟩ ∧
    (⟨List.replicate 20 defaultQuestion, 0, 600000⟩ : QuestionCacheEntry).questions ≠ [] ∧
    (getQuestionsByCategory [("history_batch", ⟨List.replicate 20 defaultQuestion, 0, 600000⟩)]
        "history" 50 0 .transportError (fun s => s) (fun _ => "") (fun _ _ => 0) 0).1
      ≠ getFallbackQuestions "history" 50 (fun _ => "") ∧
    (20 : Nat) ≠ 50 := by
  refine ⟨by decide, by decide, by decide, by decide, by decide, by decide⟩

theorem fetch_error_of_upstreamFails {upstream : UpstreamResponse}
    (hu : upstreamFails upstream) (categoryId : String) (amount : Nat)
    (dec : String → String) (ids : Nat → String) (draws : Nat → Nat → ℚ) :
    ∃ msg, fetchQuestionsFromAPI categoryId amount upstream dec ids draws = .error msg := by
  unfold fetchQuestionsFromAPI
  split
  · exact ⟨_, rfl⟩
  · split
    · exact ⟨_, rfl⟩
    · exact ⟨_, rfl⟩
    · rename_i code results
      split
      · exact ⟨_, rfl⟩
      · split
        · exact ⟨_, rfl⟩
        · rename_i hc he
          exfalso
          have hu' : code ≠ 0 ∨ results = [] := hu
          rcases hu' with hc' | hr'
          · exact hc hc'
          · exact he (by simp [hr'])

theorem getCachedQuestions_eq_none_of {cache : Cache} {k : String} (now : Int)
    (hl : mapLookup cache k = none) : getCachedQuestions cache k now = none := by
  unfold getCachedQuestions
  rw [hl]

theorem getQuestionsFetchPath_error_behavior (cache : Cache) (categoryId : String)
    (limit : Nat) (now : Int) (upstream : UpstreamResponse) (dec : String → String)
    (ids : Nat → String) (draws : Nat → Nat → ℚ) (r : ℚ) {msg : String}
    (hlim : 1 ≤ limit)
    (hferr : fetchQuestionsFromAPI categoryId (if limit = 1 then 50 else max limit 20)
      upstream dec ids draws = .error msg)
    (hne : ∀ e, mapLookup cache (categoryId ++ "_batch") = some e → e.questions ≠ []) :
    (getQuestionsFetchPath cache categoryId limit now upstream dec ids draws r).2 = cache ∧
    (getQuestionsFetchPath cache categoryId limit now upstream dec ids draws r).1 ≠ [] ∧
    (∀ fb, mapLookup cache (categoryId ++ "_batch") = some fb →
      (getQuestionsFetchPath cache categoryId limit now upstream dec ids draws r).1 =
        if limit = 1 then
          [fb.questions.getD (jsFloorIdx r (min fb.questions.length 20)) defaultQuestion]
        else fb.questions.take limit) ∧
    (mapLookup cache (categoryId ++ "_batch") = none →
      (getQuestionsFetchPath cache categoryId limit now upstream dec ids draws r).1 =
        getFallbackQuestions categoryId limit ids) := by
  unfold getQuestionsFetchPath
  split
  · rename_i qs hfetch
    rw [hferr] at hfetch
    cases hfetch
  · rename_i e hfetch
    split
    · rename_i fb hl
      have hq : fb.questions ≠ [] := hne fb hl
      rw [if_pos (List.length_pos.mpr hq)]
      split
      · refine ⟨rfl, by simp, ?_, ?_⟩
        · intro fb' hl'
          rw [hl] at hl'
          rw [← Option.some.inj hl']
        · intro hnone
          rw [hl] at hnone
          cases hnone
      · rename_i hone
        refine ⟨rfl, ?_, ?_, ?_⟩
        · simp only [ne_eq, List.take_eq_nil_iff]
          push_neg
          exact ⟨by omega, hq⟩
        · intro fb' hl'
          rw [hl] at hl'
          rw [← Option.some.inj hl']
        · intro hnone
          rw [hl] at hnone
          cases hnone
    · rename_i hl
      refine ⟨rfl, getFallbackQuestions_ne_nil categoryId (by omega) ids, ?_, fun _ => rfl⟩
      intro fb' hl'
      rw [hl] at hl'
      cases hl'

/-- C3 (confirmed): when the upstream fetch fails (transport error, non-ok
HTTP status, non-zero response code or empty result list) and the fresh-cache
check did not serve the request, `getQuestionsByCategory` still returns a
non-empty result and leaves the cache untouched: it serves from the existing
(possibly expired) cache entry for the category when one exists (non-empty, as
every stored entry is), else from the hardcoded fallback truncated to `limit`.
No upstream error is propagated. -/
theorem getQuestionsByCategory_never_throws_on_upstream_failure (cache : Cache)
    (categoryId : String) (limit : Nat) (now : Int) (upstream : UpstreamResponse)
    (dec : String → String) (ids : Nat → String) (draws : Nat → Nat → ℚ) (r : ℚ)
    (hlim : 1 ≤ limit)
    (hfail : upstreamFails upstream)
    (hmiss : ∀ qs, getCachedQuestions cache (categoryId ++ "_batch") now = some qs →
      qs.length < limit)
    (hne : ∀ e, mapLookup cache (categoryId ++ "_batch") = some e → e.questions ≠ []) :
    (getQuestionsByCategory cache categoryId limit now upstream dec ids draws r).2 = cache ∧
    (getQuestionsByCategory cache categoryId limit now upstream dec ids draws r).1 ≠ [] ∧
    (∀ fb, mapLookup cache (categoryId ++ "_batch") = some fb →
      (getQuestionsByCategory cache categoryId limit now upstream dec ids draws r).1 =
        if limit = 1 then
          [fb.questions.getD (jsFloorIdx r (min fb.questions.length 20)) defaultQuestion]
        else fb.questions.take limit) ∧
    (mapLookup cache (categoryId ++ "_batch") = none →
      (getQuestionsByCategory cache categoryId limit now upstream dec ids draws r).1 =
        getFallbackQuestions categoryId limit ids) := by
  obtain ⟨msg, hferr⟩ := fetch_error_of_upstreamFails hfail categoryId
    (if limit = 1 then 50 else max limit 20) dec ids draws
  have hpath := getQuestionsFetchPath_error_behavior cache categoryId limit now upstream
    dec ids draws r hlim hferr hne
  unfold getQuestionsByCategory
  split
  · rename_i cached hcq
    rw [if_neg (by have := hmiss cached hcq; omega)]
    exact hpath
  · exact hpath

/-- Witness for C3: an expired one-question entry for `"general"` exists, the
upstream transport fails, `limit = 5`: the call returns the stale entry's
questions truncated to 5 and leaves the cache untouched. -/
theorem getQuestionsByCategory_never_throws_witness :
    (getQuestionsByCategory [("general_batch", ⟨[defaultQuestion], -600000, 0⟩)] "general" 5
        600001 .transportError (fun s => s) (fun _ => "") (fun _ _ => 0) 0).2 =
      [("general_batch", ⟨[defaultQuestion], -600000, 0⟩)] ∧
    (getQuestionsByCategory [("general_batch", ⟨[defaultQuestion], -600000, 0⟩)] "general" 5
        600001 .transportError (fun s => s) (fun _ => "") (fun _ _ => 0) 0).1 ≠ [] ∧
    (∀ fb, mapLookup ([("general_batch", ⟨[defaultQuestion], -600000, 0⟩)] : Cache)
        ("general" ++ "_batch") = some fb →
      (getQuestionsByCategory [("general_batch", ⟨[defaultQuestion], -600000, 0⟩)] "general" 5
          600001 .transportError (fun s => s) (fun _ => "") (fun _ _ => 0) 0).1 =
        if (5 : Nat) = 1 then
          [fb.questions.getD (jsFloorIdx 0 (min fb.questions.length 20)) defaultQuestion]
        else fb.questions.take 5) ∧
    (mapLookup ([("general_batch", ⟨[defaultQuestion], -600000, 0⟩)] : Cache)
        ("general" ++ "_batch") = none →
      (getQuestionsByCategory [("general_batch", ⟨[defaultQuestion], -600000, 0⟩)] "general" 5
          600001 .transportError (fun s => s) (fun _ => "") (fun _ _ => 0) 0).1 =
        getFallbackQuestions "general" 5 (fun _ => "")) :=
  getQuestionsByCategory_never_throws_on_upstream_failure
    [("general_batch", ⟨[defaultQuestion], -600000, 0⟩)] "general" 5 600001 .transportError
    (fun s => s) (fun _ => "") (fun _ _ => 0) 0 (by decide) trivial
    (fun qs h => by
      rw [show getCachedQuestions [("general_batch", ⟨[defaultQuestion], -600000, 0⟩)]
          ("general" ++ "_batch") 600001 = none from by decide] at h
      cases h)
    (fun e he => by
      rw [show mapLookup ([("general_batch", ⟨[defaultQuestion], -600000, 0⟩)] : Cache)
          ("general" ++ "_batch") = some ⟨[defaultQuestion], -600000, 0⟩ from by decide] at he
      rw [← Option.some.inj he]
      decide)

/-- C4 (counterexample): for the unmapped category `"geography"` with an empty
cache and an otherwise healthy upstream, the mapping stage raises
`Unknown category: geography`, yet `getQuestionsByCategory` returns the
general-set hardcoded fallback normally — the error is swallowed, not
propagated to the caller. -/
theorem unknown_category_not_propagated_counterexample :
    fetchQuestionsFromAPI "geography" 20
        (.apiResponse 0 [⟨"", "multiple", "easy", "q", "A", []⟩]) (fun s => s) (fun _ => "")
        (fun _ _ => 0)
      = .error ("Unknown category: geography") ∧
    getQuestionsByCategory [] "geography" 2 0
        (.apiResponse 0 [⟨"", "multiple", "easy", "q", "A", []⟩]) (fun s => s) (fun _ => "")
        (fun _ _ => 0) 0
      = (getFallbackQuestions "geography" 2 (fun _ => ""), []) ∧
    (getFallbackQuestions "geography" 2 (fun _ => "")).map Question.question =
      ["What is the capital of Australia?", "Which planet is known as the Red Planet?"] := by
  refine ⟨by rfl, by rfl, by decide⟩

/-- C4 (amended): for a categoryId with no entry in the provider mapping (and
no cache entry for it), the `UnknownCategory` error raised at the mapping
stage is caught inside `getQuestionsByCategory`: the caller receives the
hardcoded fallback for the category — the general set, since unmapped
categories have no entry in the fallback table either — with the cache left
unchanged, and no error is propagated. -/
theorem unknown_category_swallowed_to_fallback (cache : Cache) (categoryId : String)
    (limit : Nat) (now : Int) (upstream : UpstreamResponse) (dec : String → String)
    (ids : Nat → String) (draws : Nat → Nat → ℚ) (r : ℚ)
    (hmap : CATEGORY_MAPPING categoryId = none)
    (hl : mapLookup cache (categoryId ++ "_batch") = none) :
    fetchQuestionsFromAPI categoryId (if limit = 1 then 50 else max limit 20) upstream dec
        ids draws = .error ("Unknown category: " ++ categoryId) ∧
    getQuestionsByCategory cache categoryId limit now upstream dec ids draws r =
      (getFallbackQuestions categoryId limit ids, cache) ∧
    (fallbackQuestionsTable categoryId = none → fallbackFor categoryId = generalFallback) := by
  have hfe : fetchQuestionsFromAPI categoryId (if limit = 1 then 50 else max limit 20)
      upstream dec ids draws = .error ("Unknown category: " ++ categoryId) := by
    unfold fetchQuestionsFromAPI
    rw [hmap]
  refine ⟨hfe, ?_, ?_⟩
  · unfold getQuestionsByCategory
    rw [getCachedQuestions_eq_none_of now hl]
    unfold getQuestionsFetchPath
    rw [hfe, hl]
  · intro htab
    unfold fallbackFor
    rw [htab]
    rfl

/-- Witness for C4's amended theorem at the unmapped category `"geography"`
with an empty cache. -/
theorem unknown_category_swallowed_witness :
    fetchQuestionsFromAPI "geography" (if (2 : Nat) = 1 then 50 else max 2 20)
        (.apiResponse 0 []) (fun s => s) (fun _ => "") (fun _ _ => 0)
      = .error ("Unknown category: " ++ "geography") ∧
    getQuestionsByCategory [] "geography" 2 0 (.apiResponse 0 []) (fun s => s) (fun _ => "")
        (fun _ _ => 0) 0
      = (getFallbackQuestions "geography" 2 (fun _ => ""), []) ∧
    (fallbackQuestionsTable "geography" = none →
      fallbackFor "geography" = generalFallback) :=
  unknown_category_swallowed_to_fallback [] "geography" 2 0 (.apiResponse 0 [])
    (fun s => s) (fun _ => "") (fun _ _ => 0) 0 (by decide) (by decide)

/-- C5 (amended): after a successful upstream fetch with `limit = 1` (and no
fresh-cache hit), the single question is picked uniformly at random from the
ENTIRE freshly stored batch — index `⌊r·storedCount⌋`, which ranges over all
of `[0, storedCount)` as `r` ranges over `[0,1)` — not from the first
`min(storedCount, 20)` items; the min-20 window applies only to the cache-hit
and stale-cache paths. -/
theorem fetch_success_single_pick_over_full_batch (cache : Cache) (categoryId : String)
    (now : Int) (upstream : UpstreamResponse) (dec : String → String) (ids : Nat → String)
    (draws : Nat → Nat → ℚ) (r : ℚ) {qs : List Question}
    (hmiss : getCachedQuestions cache (categoryId ++ "_batch") now = none)
    (hfetch : fetchQuestionsFromAPI categoryId 50 upstream dec ids draws = .ok qs)
    (hr0 : 0 ≤ r) (hr1 : r < 1) :
    (getQuestionsByCategory cache categoryId 1 now upstream dec ids draws r).1 =
      [qs.getD (jsFloorIdx r qs.length) defaultQuestion] ∧
    (getQuestionsByCategory cache categoryId 1 now upstream dec ids draws r).2 =
      cacheQuestions cache (categoryId ++ "_batch") qs now ∧
    jsFloorIdx r qs.length < qs.length ∧
    (∀ i, i < qs.length → jsFloorIdx ((i : ℚ) / (qs.length : ℚ)) qs.length = i) := by
  have hpos : 0 < qs.length := List.length_pos.mpr (fetchQuestionsFromAPI_ok_ne_nil hfetch)
  have hfetch' : fetchQuestionsFromAPI categoryId (if (1 : Nat) = 1 then 50 else max 1 20)
      upstream dec ids draws = .ok qs := by rw [if_pos rfl]; exact hfetch
  unfold getQuestionsByCategory
  split
  · rename_i cached hcq
    rw [hmiss] at hcq
    cases hcq
  · unfold getQuestionsFetchPath
    split
    · rename_i qs' hf
      rw [hfetch'] at hf
      rw [← Except.ok.inj hf]
      rw [if_pos ⟨rfl, hpos⟩]
      exact ⟨rfl, rfl, jsFloorIdx_lt hr0 hr1 hpos, fun i hi => jsFloorIdx_exact hi⟩
    · rename_i e hf
      rw [hfetch'] at hf
      cases hf

/-- Witness for C5's amended theorem: a fetch returning a single question with
`r = 1/2` picks index `⌊1/2 · 1⌋ = 0` of the whole batch. -/
theorem fetch_success_single_pick_witness :
    (getQuestionsByCategory [] "general" 1 0
        (.apiResponse 0 [⟨"", "multiple", "easy", "q", "A", []⟩]) (fun s => s) (fun _ => "")
        (fun _ _ => 0) (1/2)).1 =
      [([({ id := "", categoryId := "general", question := "q", options := ["A"],
            correctAnswer := 0, difficulty := 1 } : Question)] : List Question).getD
        (jsFloorIdx (1/2)
          ([({ id := "", categoryId := "general", question := "q", options := ["A"],
               correctAnswer := 0, difficulty := 1 } : Question)] : List Question).length)
        defaultQuestion] ∧
    (getQuestionsByCategory [] "general" 1 0
        (.apiResponse 0 [⟨"", "multiple", "easy", "q", "A", []⟩]) (fun s => s) (fun _ => "")
        (fun _ _ => 0) (1/2)).2 =
      cacheQuestions [] ("general" ++ "_batch")
        [({ id := "", categoryId := "general", question := "q", options := ["A"],
            correctAnswer := 0, difficulty := 1 } : Question)] 0 ∧
    jsFloorIdx (1/2)
        ([({ id := "", categoryId := "general", question := "q", options := ["A"],
             correctAnswer := 0, difficulty := 1 } : Question)] : List Question).length <
      ([({ id := "", categoryId := "general", question := "q", options := ["A"],
           correctAnswer := 0, difficulty := 1 } : Question)] : List Question).length ∧
    (∀ i, i < ([({ id := "", categoryId := "general", question := "q", options := ["A"],
                   correctAnswer := 0, difficulty := 1 } : Question)] : List Question).length →
      jsFloorIdx ((i : ℚ) /
          (([({ id := "", categoryId := "general", question := "q", options := ["A"],
                correctAnswer := 0, difficulty := 1 } : Question)] : List Question).length : ℚ))
        ([({ id := "", categoryId := "general", question := "q", options := ["A"],
             correctAnswer := 0, difficulty := 1 } : Question)] : List Question).length = i) :=
  fetch_success_single_pick_over_full_batch [] "general" 0
    (.apiResponse 0 [⟨"", "multiple", "easy", "q", "A", []⟩]) (fun s => s) (fun _ => "")
    (fun _ _ => 0) (1/2) (by rfl) (by rfl) (by norm_num) (by norm_num)

/-- C5 (counterexample): after a successful fetch of a 21-question batch with
`limit = 1` and draw `r = 20/21`, the code picks index
`⌊r · 21⌋ = 20 ≥ min(21, 20)`: the served question is the last element of the
stored batch and is NOT among the first `min(storedCount, 20)` items, so the
random index is not always below `min(storedCount, 20)` on the fetch-success
path. -/
theorem single_pick_exceeds_window_counterexample :
    c5call.1 = [c5batch.getD 20 defaultQuestion] ∧
    mapLookup c5call.2 ("general" ++ "_batch") = some ⟨c5batch, 0, 600000⟩ ∧
    c5batch.length = 21 ∧
    c5batch.getD 20 defaultQuestion ∉ c5batch.take (min c5batch.length 20) := by
  have hidx : jsFloorIdx ((20 : ℚ) / 21) 21 = 20 := by
    unfold jsFloorIdx
    rw [show (((21 : Nat) : ℚ)) = (21 : ℚ) from by norm_num]
    rw [show ⌊(20 : ℚ) / 21 * (21 : ℚ)⌋ = 20 from by norm_num]
    rfl
  have hfetch : fetchQuestionsFromAPI "general" (if (1 : Nat) = 1 then 50 else max 1 20)
      (.apiResponse 0 c5results) (fun s => s) (fun _ => "") (fun _ _ => 0) = .ok c5batch := by
    rfl
  have step : c5call =
      ([c5batch.getD (jsFloorIdx ((20 : ℚ) / 21) c5batch.length) defaultQuestion],
       cacheQuestions [] ("general" ++ "_batch") c5batch 0) := by
    unfold c5call getQuestionsByCategory
    split
    · rename_i cached hcq
      rw [show getCachedQuestions [] ("general" ++ "_batch") 0 = none from rfl] at hcq
      cases hcq
    · unfold getQuestionsFetchPath
      split
      · rename_i qs hf
        rw [hfetch] at hf
        rw [← Except.ok.inj hf]
        rw [if_pos ⟨rfl, by decide⟩]
      · rename_i e hf
        rw [hfetch] at hf
        cases hf
  rw [step]
  refine ⟨?_, by decide, by decide, by decide⟩
  rw [show c5batch.length = 21 from by decide, hidx]

/-- Witness for C2's amended theorem at a concrete two-entry cache: the entry
expiring at `600000` survives the sweep at `now = 600000`, and the stats count
exactly the surviving entries. -/
theorem cleanupExpiredCache_threshold_witness :
    (∀ k e, (k, e) ∈ cleanupExpiredCache
        [("a", ⟨[], 0, 600000⟩), ("b", ⟨[], -1300000, -700000⟩)] 600000 ↔
      ((k, e) ∈ ([("a", ⟨[], 0, 600000⟩), ("b", ⟨[], -1300000, -700000⟩)] : Cache) ∧
        (600000 : Int) ≤ e.expiry + CACHE_DURATION)) ∧
    (getCacheStats (cleanupExpiredCache
        [("a", ⟨[], 0, 600000⟩), ("b", ⟨[], -1300000, -700000⟩)] 600000) 600000).totalEntries =
      (([("a", ⟨[], 0, 600000⟩), ("b", ⟨[], -1300000, -700000⟩)] : Cache).filter
        (fun p => decide ((600000 : Int) ≤ p.2.expiry + CACHE_DURATION))).length :=
  cleanupExpiredCache_threshold
    [("a", ⟨[], 0, 600000⟩), ("b", ⟨[], -1300000, -700000⟩)] 600000 (by decide)

end Trivia

namespace Stock

theorem getQuote_hit {s : StockState} {symbol : String} {now : Int}
    (upstream : QuoteUpstream) {c : QuoteEntry}
    (hl : Trivia.mapLookup s.quoteCache (jsToUpper symbol) = some c)
    (hfresh : now - c.timestamp < s.cacheTtl) :
    getQuote s symbol now upstream = (.ok c.data, s, false) := by
  unfold getQuote
  split
  · rename_i cached hl'
    rw [hl] at hl'
    rw [← Option.some.inj hl']
    rw [if_pos hfresh]
  · rename_i hl'
    rw [hl] at hl'
    cases hl'

theorem getQuote_ok_cached {s : StockState} {symbol : String} {now : Int}
    {upstream : QuoteUpstream} {q : Quote}
    (h : (getQuote s symbol now upstream).1 = .ok q) :
    ∃ e, Trivia.mapLookup (getQuote s symbol now upstream).2.1.quoteCache
        (jsToUpper symbol) = some e ∧ e.data = q ∧
      (getQuote s symbol now upstream).2.1.cacheTtl = s.cacheTtl := by
  unfold getQuote at h ⊢
  split at h
  · rename_i cached hl
    split at h
    · rename_i hfresh
      rw [if_pos hfresh]
      exact ⟨cached, hl, Except.ok.inj h, rfl⟩
    · rename_i hstale
      rw [if_neg hstale]
      unfold getQuoteFetch at h ⊢
      cases upstream with
      | fetchFail => cases h
      | response fr =>
        cases fr with
        | none => cases h
        | some qr =>
          refine ⟨⟨now, ⟨qr.symbol, qr.price, qr.change⟩⟩, ?_, ?_, rfl⟩
          · exact Trivia.mapLookup_mapSet_self _ _ _
          · exact Except.ok.inj h
  · unfold getQuoteFetch at h ⊢
    cases upstream with
    | fetchFail => cases h
    | response fr =>
      cases fr with
      | none => cases h
      | some qr =>
        refine ⟨⟨now, ⟨qr.symbol, qr.price, qr.change⟩⟩, ?_, ?_, rfl⟩
        · exact Trivia.mapLookup_mapSet_self _ _ _
        · exact Except.ok.inj h

/-- C7 (confirmed): a fresh cache entry (`now - storedAt < TTL`) for the
uppercased symbol is served verbatim without invoking the upstream provider
and without touching the state; consequently, after any successful `getQuote`
call, a second call while the stored entry is still fresh performs no upstream
call and returns a value equal to the first call's result. -/
theorem getQuote_fresh_cache_no_upstream :
    (∀ (s : StockState) (symbol : String) (now : Int) (upstream : QuoteUpstream)
        (c : QuoteEntry),
      Trivia.mapLookup s.quoteCache (jsToUpper symbol) = some c →
      now - c.timestamp < s.cacheTtl →
      getQuote s symbol now upstream = (.ok c.data, s, false)) ∧
    (∀ (s : StockState) (symbol : String) (now₁ now₂ : Int)
        (u₁ u₂ : QuoteUpstream) (q : Quote) (e : QuoteEntry),
      (getQuote s symbol now₁ u₁).1 = .ok q →
      Trivia.mapLookup (getQuote s symbol now₁ u₁).2.1.quoteCache (jsToUpper symbol) =
        some e →
      now₂ - e.timestamp < s.cacheTtl →
      getQuote (getQuote s symbol now₁ u₁).2.1 symbol now₂ u₂ =
        (.ok q, (getQuote s symbol now₁ u₁).2.1, false)) := by
  constructor
  · intro s symbol now upstream c hl hfresh
    exact getQuote_hit upstream hl hfresh
  · intro s symbol now₁ now₂ u₁ u₂ q e hok hl hfresh
    obtain ⟨e', hl', hdata, httl⟩ := getQuote_ok_cached hok
    rw [hl'] at hl
    rw [← Option.some.inj hl] at hfresh
    rw [← hdata]
    exact getQuote_hit u₂ hl' (by rw [httl]; exact hfresh)

/-- Witness for C7: a first `getQuote` on a fresh service fetches and stores
`AAPL`; a second call 30 s later (TTL 60 s) returns the same quote without an
upstream call. -/
theorem getQuote_fresh_cache_no_upstream_witness :
    getQuote (getQuote (initStockState 10000 60000) "aapl" 0
        (.response (some ⟨"AAPL", 10, 1⟩))).2.1 "aapl" 30000 .fetchFail =
      (.ok ⟨"AAPL", 10, 1⟩,
       (getQuote (initStockState 10000 60000) "aapl" 0
         (.response (some ⟨"AAPL", 10, 1⟩))).2.1, false) :=
  getQuote_fresh_cache_no_upstream.2 (initStockState 10000 60000) "aapl" 0 30000
    (.response (some ⟨"AAPL", 10, 1⟩)) .fetchFail ⟨"AAPL", 10, 1⟩ ⟨0, ⟨"AAPL", 10, 1⟩⟩
    (by rfl) (by rfl) (by decide)

theorem buy_eq_of_gt {s : StockState} {symbol : String} {shares price : ℚ}
    (h : shares * price > s.balance) :
    buy s symbol shares price = (.error "Not enough funds", s) := by
  simp only [buy]
  rw [if_pos h]

theorem buy_eq_of_le {s : StockState} {symbol : String} {shares price : ℚ}
    (h : ¬ shares * price > s.balance) :
    buy s symbol shares price =
      (.ok (s.balance - shares * price,
        Trivia.mapSet s.portfolio (jsToUpper symbol)
          ⟨((Trivia.mapLookup s.portfolio (jsToUpper symbol)).getD ⟨0, 0⟩).shares + shares,
           (((Trivia.mapLookup s.portfolio (jsToUpper symbol)).getD ⟨0, 0⟩).avgPrice *
               ((Trivia.mapLookup s.portfolio (jsToUpper symbol)).getD ⟨0, 0⟩).shares +
             shares * price) /
             (((Trivia.mapLookup s.portfolio (jsToUpper symbol)).getD ⟨0, 0⟩).shares +
               shares)⟩),
       { s with
         balance := s.balance - shares * price
         portfolio :=
          Trivia.mapSet s.portfolio (jsToUpper symbol)
            ⟨((Trivia.mapLookup s.portfolio (jsToUpper symbol)).getD ⟨0, 0⟩).shares + shares,
             (((Trivia.mapLookup s.portfolio (jsToUpper symbol)).getD ⟨0, 0⟩).avgPrice *
                 ((Trivia.mapLookup s.portfolio (jsToUpper symbol)).getD ⟨0, 0⟩).shares +
               shares * price) /
               (((Trivia.mapLookup s.portfolio (jsToUpper symbol)).getD ⟨0, 0⟩).shares +
                 shares)⟩ }) := by
  simp only [buy, getPortfolio]
  rw [if_neg h]

theorem sell_eq_of_none {s : StockState} {symbol : String} {shares price : ℚ}
    (hl : Trivia.mapLookup s.portfolio (jsToUpper symbol) = none) :
    sell s symbol shares price = (.error "Not enough shares", s) := by
  simp only [sell]
  split
  · rfl
  · rename_i p hl'
    rw [hl] at hl'
    cases hl'

theorem sell_eq_of_lt {s : StockState} {symbol : String} {shares price : ℚ} {p : Position}
    (hl : Trivia.mapLookup s.portfolio (jsToUpper symbol) = some p)
    (h : p.shares < shares) :
    sell s symbol shares price = (.error "Not enough shares", s) := by
  simp only [sell]
  split
  · rename_i hl'
    rw [hl] at hl'
  · rename_i p' hl'
    rw [hl] at hl'
    rw [← Option.some.inj hl']
    rw [if_pos h]

theorem sell_eq_of_ge {s : StockState} {symbol : String} {shares price : ℚ} {p : Position}
    (hl : Trivia.mapLookup s.portfolio (jsToUpper symbol) = some p)
    (h : ¬ p.shares < shares) :
    sell s symbol shares price =
      (.ok (s.balance + shares * price,
        if p.shares - shares = 0 then Trivia.mapDelete s.portfolio (jsToUpper symbol)
        else Trivia.mapSet s.portfolio (jsToUpper symbol) ⟨p.shares - shares, p.avgPrice⟩),
       { s with
         balance := s.balance + shares * price
         portfolio :=
          if p.shares - shares = 0 then Trivia.mapDelete s.portfolio (jsToUpper symbol)
          else Trivia.mapSet s.portfolio (jsToUpper symbol)
            ⟨p.shares - shares, p.avgPrice⟩ }) := by
  simp only [sell, getPortfolio]
  split
  · rename_i hl'
    rw [hl] at hl'
    cases hl'
  · rename_i p' hl'
    rw [hl] at hl'
    rw [← Option.some.inj hl']
    rw [if_neg h]

/-- C8 (confirmed): the ledger's error conditions are exact and atomic:
`buy` fails with `InsufficientFunds` iff `shares * price > balance`, `sell`
fails with `InsufficientShares` iff there is no position for the uppercased
symbol or it holds fewer than `shares`, and every failing call leaves the
state unchanged. -/
theorem ledger_error_conditions (s : StockState) (symbol : String) (shares price : ℚ) :
    ((buy s symbol shares price).1 = .error "Not enough funds" ↔
      shares * price > s.balance) ∧
    (shares * price > s.balance → (buy s symbol shares price).2 = s) ∧
    ((sell s symbol shares price).1 = .error "Not enough shares" ↔
      (Trivia.mapLookup s.portfolio (jsToUpper symbol) = none ∨
       ∃ p, Trivia.mapLookup s.portfolio (jsToUpper symbol) = some p ∧
         p.shares < shares)) ∧
    ((Trivia.mapLookup s.portfolio (jsToUpper symbol) = none ∨
      ∃ p, Trivia.mapLookup s.portfolio (jsToUpper symbol) = some p ∧ p.shares < shares) →
      (sell s symbol shares price).2 = s) := by
  refine ⟨?_, ?_, ?_, ?_⟩
  · by_cases hc : shares * price > s.balance
    · rw [buy_eq_of_gt hc]
      exact ⟨fun _ => hc, fun _ => rfl⟩
    · rw [buy_eq_of_le hc]
      constructor
      · intro h'
        cases h'
      · intro h'
        exact absurd h' hc
  · intro hc
    rw [buy_eq_of_gt hc]
  · cases hl : Trivia.mapLookup s.portfolio (jsToUpper symbol) with
    | none =>
      rw [sell_eq_of_none hl]
      exact ⟨fun _ => Or.inl rfl, fun _ => rfl⟩
    | some p =>
      by_cases hs : p.shares < shares
      · rw [sell_eq_of_lt hl hs]
        exact ⟨fun _ => Or.inr ⟨p, rfl, hs⟩, fun _ => rfl⟩
      · rw [sell_eq_of_ge hl hs]
        constructor
        · intro h'
          cases h'
        · intro h'
          rcases h' with h' | ⟨p', hp', hs'⟩
          · cases h'
          · rw [← Option.some.inj hp'] at hs'
            exact absurd hs' hs
  · intro h'
    rcases h' with h' | ⟨p, hp, hs⟩
    · rw [sell_eq_of_none h']
    · rw [sell_eq_of_lt hp hs]

/-- Witness for C8: on a 10-balance ledger, `buy("a", 5, 3)` (cost 15) fails
with funds error leaving the state unchanged, and `sell("a", 1, 1)` on the
empty portfolio fails with shares error leaving the state unchanged. -/
theorem ledger_error_conditions_witness :
    (buy (initStockState 10 60000) "a" 5 3).1 = .error "Not enough funds" ∧
    (buy (initStockState 10 60000) "a" 5 3).2 = initStockState 10 60000 ∧
    (sell (initStockState 10 60000) "a" 1 1).1 = .error "Not enough shares" ∧
    (sell (initStockState 10 60000) "a" 1 1).2 = initStockState 10 60000 := by
  have h₁ := ledger_error_conditions (initStockState 10 60000) "a" 5 3
  have h₂ := ledger_error_conditions (initStockState 10 60000) "a" 1 1
  have hgt : (5 : ℚ) * 3 > (initStockState 10 60000).balance := by norm_num [initStockState]
  have hnone : Trivia.mapLookup (initStockState 10 60000).portfolio (jsToUpper "a") = none :=
    rfl
  exact ⟨h₁.1.mpr hgt, h₁.2.1 hgt, h₂.2.2.1.mpr (Or.inl hnone), h₂.2.2.2 (Or.inl hnone)⟩

/-- C9 (confirmed): ledger success postconditions.  A successful `buy`
decreases the balance by `shares * price`, increments the position by
`shares`, and sets its average cost to
`(oldAvg * oldShares + shares * price) / (oldShares + shares)` (starting from
the `{shares := 0, avgPrice := 0}` default for a new symbol).  A successful
`sell` increases the balance by `shares * price`, decrements the position, and
removes it from the portfolio exactly when its share count reaches zero. -/
theorem ledger_success_postconditions (s : StockState) (symbol : String)
    (shares price : ℚ) :
    (shares * price ≤ s.balance →
      ((buy s symbol shares price).1.isOk = true) ∧
      (buy s symbol shares price).2.balance = s.balance - shares * price ∧
      (∀ p, Trivia.mapLookup s.portfolio (jsToUpper symbol) = some p →
        Trivia.mapLookup (buy s symbol shares price).2.portfolio (jsToUpper symbol) =
          some ⟨p.shares + shares,
            (p.avgPrice * p.shares + shares * price) / (p.shares + shares)⟩) ∧
      (Trivia.mapLookup s.portfolio (jsToUpper symbol) = none →
        Trivia.mapLookup (buy s symbol shares price).2.portfolio (jsToUpper symbol) =
          some ⟨0 + shares, (0 * 0 + shares * price) / (0 + shares)⟩)) ∧
    (∀ p, Trivia.mapLookup s.portfolio (jsToUpper symbol) = some p → shares ≤ p.shares →
      (sell s symbol shares price).2.balance = s.balance + shares * price ∧
      (Trivia.mapLookup (sell s symbol shares price).2.portfolio (jsToUpper symbol) = none ↔
        p.shares = shares) ∧
      (p.shares ≠ shares →
        Trivia.mapLookup (sell s symbol shares price).2.portfolio (jsToUpper symbol) =
          some ⟨p.shares - shares, p.avgPrice⟩)) := by
  constructor
  · intro hle
    have hc : ¬ shares * price > s.balance := not_lt.mpr hle
    rw [buy_eq_of_le hc]
    refine ⟨rfl, rfl, ?_, ?_⟩
    · intro p hp
      rw [hp]
      exact Trivia.mapLookup_mapSet_self _ _ _
    · intro hp
      rw [hp]
      exact Trivia.mapLookup_mapSet_self _ _ _
  · intro p hp hle
    have hs : ¬ p.shares < shares := not_lt.mpr hle
    rw [sell_eq_of_ge hp hs]
    refine ⟨rfl, ?_, ?_⟩
    · by_cases h0 : p.shares - shares = 0
      · rw [if_pos h0]
        simp only [Trivia.mapLookup_mapDelete_self]
        exact iff_of_true trivial (sub_eq_zero.mp h0)
      · rw [if_neg h0]
        rw [Trivia.mapLookup_mapSet_self]
        constructor
        · intro h'
          cases h'
        · intro h'
          exact absurd (sub_eq_zero.mpr h') h0
    · intro hne
      have h0 : ¬ p.shares - shares = 0 := fun hc => hne (sub_eq_zero.mp hc)
      rw [if_neg h0]
      exact Trivia.mapLookup_mapSet_self _ _ _

/-- Witness for C9, reproducing the spec's examples: buying 5 shares at 100
then 5 more at 200 on a fresh 10000-balance ledger yields a position of 10
shares at average price 150; buying 10 at 100 and selling all 10 at 110
yields balance 10100 and no position. -/
theorem ledger_success_postconditions_witness :
    Trivia.mapLookup
        (buy (buy (initStockState 10000 60000) "AAPL" 5 100).2 "AAPL" 5 200).2.portfolio
        (jsToUpper "AAPL") = some ⟨10, 150⟩ ∧
    (buy (buy (initStockState 10000 60000) "AAPL" 5 100).2 "AAPL" 5 200).2.balance = 8500 ∧
    Trivia.mapLookup
        (sell (buy (initStockState 10000 60000) "AAPL" 10 100).2 "AAPL" 10 110).2.portfolio
        (jsToUpper "AAPL") = none ∧
    (sell (buy (initStockState 10000 60000) "AAPL" 10 100).2 "AAPL" 10 110).2.balance
      = 10100 := by
  have h₁ := (ledger_success_postconditions (initStockState 10000 60000) "AAPL" 5 100).1
    (by norm_num [initStockState])
  have hl₁ := h₁.2.2.2 rfl
  have hb₁ := h₁.2.1
  have hbal : (buy (initStockState 10000 60000) "AAPL" 5 100).2.balance = 9500 := by
    rw [hb₁]
    norm_num [initStockState]
  have h₂ := (ledger_success_postconditions
    (buy (initStockState 10000 60000) "AAPL" 5 100).2 "AAPL" 5 200).1
    (by rw [hbal]; norm_num)
  have hl₂ := h₂.2.2.1 _ hl₁
  have h₃ := (ledger_success_postconditions (initStockState 10000 60000) "AAPL" 10 100).1
    (by norm_num [initStockState])
  have hl₃ := h₃.2.2.2 rfl
  have hbal₃ : (buy (initStockState 10000 60000) "AAPL" 10 100).2.balance = 9000 := by
    rw [h₃.2.1]
    norm_num [initStockState]
  have h₄ := ledger_success_postconditions
    (buy (initStockState 10000 60000) "AAPL" 10 100).2 "AAPL" 10 110
  have h₅ := h₄.2 _ hl₃ (by norm_num)
  refine ⟨?_, ?_, ?_, ?_⟩
  · rw [hl₂]
    simp only [Option.some.injEq, Position.mk.injEq]
    norm_num
  · rw [h₂.2.1, hbal]
    norm_num
  · exact h₅.2.1.mpr (by norm_num)
  · rw [h₅.1, hbal₃]
    norm_num

/-- C10 (confirmed): `buy` performs no positivity validation: every call with
`shares * price ≤ balance` — including `shares ≤ 0` or `price ≤ 0` — succeeds
and changes the balance by `-shares * price`; `buy(sym, 0, price)` on a symbol
not currently held stores a position whose `avgPrice` is the result of the
division `0 / 0` (the `(0*0 + 0*price)/(0+0)` the code computes); a call with
negative `shares` and positive `price` strictly increases the balance. -/
theorem buy_no_positivity_validation (s : StockState) (symbol : String)
    (shares price : ℚ) :
    (shares * price ≤ s.balance →
      ((buy s symbol shares price).1.isOk = true) ∧
      (buy s symbol shares price).2.balance = s.balance - shares * price) ∧
    (Trivia.mapLookup s.portfolio (jsToUpper symbol) = none → (0 : ℚ) * price ≤ s.balance →
      Trivia.mapLookup (buy s symbol 0 price).2.portfolio (jsToUpper symbol) =
        some ⟨0 + 0, (0 * 0 + 0 * price) / (0 + 0)⟩ ∧
      ((0 : ℚ) * 0 + 0 * price) / ((0 : ℚ) + 0) = 0 / 0) ∧
    (shares < 0 → 0 < price → shares * price ≤ s.balance →
      s.balance < (buy s symbol shares price).2.balance) := by
  refine ⟨?_, ?_, ?_⟩
  · intro hle
    rw [buy_eq_of_le (not_lt.mpr hle)]
    exact ⟨rfl, rfl⟩
  · intro hp hle
    constructor
    · rw [buy_eq_of_le (not_lt.mpr hle)]
      rw [hp]
      exact Trivia.mapLookup_mapSet_self _ _ _
    · norm_num
  · intro hsh hpr hle
    rw [buy_eq_of_le (not_lt.mpr hle)]
    have : shares * price < 0 := mul_neg_of_neg_of_pos hsh hpr
    show s.balance < s.balance - shares * price
    linarith

/-- Witness for C10: on a 100-balance ledger, `buy("a", 2, 3)` succeeds and
debits 6; `buy("a", 0, 3)` on the unheld symbol stores `avgPrice = 0/0`
(i.e. `0` in ℚ); `buy("a", -1, 2)` increases the balance. -/
theorem buy_no_positivity_validation_witness :
    (((buy (initStockState 100 60000) "a" 2 3).1.isOk = true) ∧
      (buy (initStockState 100 60000) "a" 2 3).2.balance =
        (initStockState 100 60000).balance - 2 * 3) ∧
    (Trivia.mapLookup (buy (initStockState 100 60000) "a" 0 3).2.portfolio (jsToUpper "a") =
        some ⟨0 + 0, (0 * 0 + 0 * 3) / (0 + 0)⟩ ∧
      ((0 : ℚ) * 0 + 0 * 3) / ((0 : ℚ) + 0) = 0 / 0) ∧
    (initStockState 100 60000).balance < (buy (initStockState 100 60000) "a" (-1) 2).2.balance
    := by
  have h₁ := buy_no_positivity_validation (initStockState 100 60000) "a" 2 3
  have h₂ := buy_no_positivity_validation (initStockState 100 60000) "a" 0 3
  have h₃ := buy_no_positivity_validation (initStockState 100 60000) "a" (-1) 2
  exact ⟨h₁.1 (by norm_num [initStockState]),
    h₂.2.1 rfl (by norm_num [initStockState]),
    h₃.2.2 (by norm_num) (by norm_num) (by norm_num [initStockState])⟩

end Stock
